import Mathlib

/-!
Verification of the crawl-and-update engine in `arxiv_crawler.py`
(`ArxivScraper`).  The Python code is shallowly embedded: Python `str`
operations (`find`, slicing, `in`, `replace`, `int`) are modelled over
`List Char` (Python strings index by code point), `datetime.strptime`
with the fixed format `"%d %B, %Y"` is modelled after CPython's
`_strptime` regular expressions, BeautifulSoup parse trees are modelled
as structured oracle input (`Page`, `ResultEntry`, `Node`), the network
and the storage collaborator (`paper.PaperDatabase`, an external
dependency of the repository) are modelled as oracles, and exceptional
control flow (`TypeError`, `ValueError`, the `pdb.set_trace()`
breakpoint on unexpected markup) is modelled with `Except` / `Option`.
-/

namespace ArxivCrawler

/-! ## Python string primitives (code-point based) -/

/-- Decides whether `sub` is a prefix of `l` (character lists). -/
def isPrefOf : List Char → List Char → Bool
  | [], _ => true
  | _ :: _, [] => false
  | a :: ta, b :: tb => a = b && isPrefOf ta tb

/-- Index of the first occurrence of `sub` in `l`, if any. -/
def findSubAux (sub : List Char) : List Char → Option Nat
  | [] => if isPrefOf sub [] then some 0 else none
  | c :: t => if isPrefOf sub (c :: t) then some 0 else (findSubAux sub t).map (· + 1)

/-- Python `s.find(sub, start)`: code-point index of the first occurrence of
`sub` at or after `start` (negative `start` counts from the end, clamped),
or `-1` when there is none. -/
def pyFind (s sub : String) (start : Int) : Int :=
  let l := s.data
  let n := l.length
  let st : Nat := if start < 0 then (start + n).toNat else min start.toNat n
  match findSubAux sub.data (l.drop st) with
  | some j => ((st + j : Nat) : Int)
  | none => -1

/-- Python `sub in s` (substring containment). -/
def pyContains (sub s : String) : Bool :=
  (findSubAux sub.data s.data).isSome

/-- Clamp one slice bound to `[0, n]`, Python-style (negative counts from the
end). -/
def pySliceIdx (n : Nat) (i : Int) : Nat :=
  if i < 0 then (i + n).toNat else min i.toNat n

/-- Python `s[a:b]` (code-point slicing with negative-index wrap-around and
clamping). -/
def pySlice (s : String) (a b : Int) : String :=
  let l := s.data
  let n := l.length
  String.mk ((l.take (pySliceIdx n b)).drop (pySliceIdx n a))

/-- Python `s[a:]`. -/
def pySliceFrom (s : String) (a : Int) : String :=
  pySlice s a (s.data.length : Int)

/-- The ASCII fragment of Python's `\s` / `str.strip()` whitespace (the inputs
of this crawler contain no exotic Unicode whitespace). -/
def pyIsSpace (c : Char) : Bool :=
  c = ' ' || c = '\t' || c = '\n' || c = '\r' || c = '\x0b' || c = '\x0c'

/-- Python `int(s)` for the (unsigned decimal) strings this crawler feeds it:
surrounding whitespace is stripped, then the digits are read; anything else
raises `ValueError`, modelled as `none`.  (Signs and digit-group underscores,
never produced by the result-count header, are not modelled.) -/
def pyInt (s : String) : Option Nat :=
  let t := ((s.data.dropWhile pyIsSpace).reverse.dropWhile pyIsSpace).reverse
  match t with
  | [] => none
  | _ =>
    if t.all Char.isDigit then
      some (t.foldl (fun acc c => acc * 10 + (c.toNat - 48)) 0)
    else none

/-- Python `s.replace(",", "")`. -/
def removeCommas (s : String) : String :=
  String.mk (s.data.filter (· ≠ ','))

/-- Python `range(start, stop, step)` for a positive `step`. -/
def pyRange (start stop stp : Nat) : List Nat :=
  (List.range (if start < stop then (stop - start + stp - 1) / stp else 0)).map
    (fun i => start + i * stp)

/-! ## The `re.sub(r"\s+", " ", s)` model -/

/-- Replace every maximal whitespace run by a single space.  The flag records
whether the previous character belonged to a run already replaced. -/
def collapseAux : Bool → List Char → List Char
  | _, [] => []
  | inRun, c :: t =>
    if pyIsSpace c then
      if inRun then collapseAux true t else ' ' :: collapseAux true t
    else c :: collapseAux false t

/-- The `re.sub(r"\s+", " ", s)` call of `parse_search_text`. -/
def collapseWs (s : String) : String :=
  String.mk (collapseAux false s.data)

/-! ## `datetime.strptime(s, "%d %B, %Y")` -/

/-- ASCII lower-casing (CPython compiles the strptime patterns with
`re.IGNORECASE`). -/
def asciiLower (c : Char) : Char :=
  if 'A' ≤ c && c ≤ 'Z' then Char.ofNat (c.toNat + 32) else c

/-- Case-insensitive prefix test against an already-lower-case pattern. -/
def isPrefOfCI (pat : List Char) (l : List Char) : Bool :=
  isPrefOf pat (l.map asciiLower)

/-- Full English month names, lower-cased, as matched by `%B`. -/
def monthNames : List (String × Nat) :=
  [("january", 1), ("february", 2), ("march", 3), ("april", 4), ("may", 5),
   ("june", 6), ("july", 7), ("august", 8), ("september", 9), ("october", 10),
   ("november", 11), ("december", 12)]

/-- Match `%B` (a full month name, case-insensitively) at the front of `l`.
No month name is a prefix of another, so the match is unambiguous. -/
def matchMonth (l : List Char) : Option (Nat × List Char) :=
  monthNames.findSome? fun nm =>
    if isPrefOfCI nm.1.data l then some (nm.2, l.drop nm.1.data.length) else none

/-- The alternatives of CPython's `%d` pattern
`3[0-1]|[1-2]\d|0[1-9]|[1-9]| [1-9]`, in regex order; each yields the matched
day and the remaining input (keeping all of them models regex backtracking). -/
def dayAlts : List Char → List (Nat × List Char)
  | c1 :: c2 :: rest =>
    (if c1 = '3' && ('0' ≤ c2 && c2 ≤ '1') then [(30 + (c2.toNat - 48), rest)] else []) ++
    (if ('1' ≤ c1 && c1 ≤ '2') && c2.isDigit then
        [((c1.toNat - 48) * 10 + (c2.toNat - 48), rest)] else []) ++
    (if c1 = '0' && ('1' ≤ c2 && c2 ≤ '9') then [((c2.toNat - 48), rest)] else []) ++
    (if '1' ≤ c1 && c1 ≤ '9' then [((c1.toNat - 48), c2 :: rest)] else []) ++
    (if c1 = ' ' && ('1' ≤ c2 && c2 ≤ '9') then [((c2.toNat - 48), rest)] else [])
  | [c1] => if '1' ≤ c1 && c1 ≤ '9' then [((c1.toNat - 48), [])] else []
  | [] => []

/-- Match `%Y` (exactly four digits). -/
def fourDigits : List Char → Option (Nat × List Char)
  | a :: b :: c :: d :: rest =>
    if a.isDigit && b.isDigit && c.isDigit && d.isDigit then
      some (((a.toNat - 48) * 10 + (b.toNat - 48)) * 100 +
            ((c.toNat - 48) * 10 + (d.toNat - 48)), rest)
    else none
  | _ => none

/-- Day count of a Gregorian month, as validated by the `datetime` constructor. -/
def daysInMonth (y m : Nat) : Nat :=
  if m = 2 then
    if y % 4 = 0 && (y % 100 ≠ 0 || y % 400 = 0) then 29 else 28
  else if m = 4 || m = 6 || m = 9 || m = 11 then 30
  else 31

/-- `datetime.strptime(s, "%d %B, %Y")`, reduced to the `(year, month, day)`
triple the crawler stores.  The whole string must be consumed (CPython raises
`ValueError` on unconverted trailing data), and the `datetime` constructor's
range checks on year and day-of-month are applied.  `none` models the raised
`ValueError`. -/
def strptimeDMY (s : String) : Option (Nat × Nat × Nat) :=
  (dayAlts s.data).findSome? fun dc =>
    match dc.2 with
    | ' ' :: r2 =>
      match matchMonth r2 with
      | some (m, r3) =>
        match r3 with
        | ',' :: ' ' :: r4 =>
          match fourDigits r4 with
          | some (y, []) =>
            if 1 ≤ y && dc.1 ≤ daysInMonth y m then some (y, m, dc.1) else none
          | _ => none
        | _ => none
      | none => none
    | _ => none

/-! ## BeautifulSoup trees as oracle input

`parse_search_text` walks `tag.children`; each child is a `NavigableString`
or a `Tag`.  The tags the code distinguishes are `span` (with its `class`
list and its `get_text(strip=False)` text) and `a` (with its optional
`onclick` attribute); any other tag shape hits the `pdb.set_trace()`
branch.  A `span` lacking a `class` attribute would raise `TypeError` in
`"search-hit" in child.get("class")`; it is modelled with the empty class
list, which likewise aborts the walk (through the breakpoint branch). -/

inductive Node where
  | text (s : String)
  | span (classes : List String) (txt : String)
  | link (onclick : Option String) (txt : String)
  | other (nm : String)
  deriving DecidableEq

/-- Exceptional outcomes of the Python code: an uncaught `TypeError`, an
uncaught `ValueError`, or the `pdb.set_trace()` breakpoint (which suspends a
non-interactive run). -/
inductive Err where
  | typeError
  | valueError
  | pdbStop
  deriving DecidableEq

/-- Equality of `Except` values is decidable when it is on both sides. -/
instance {ε α : Type} [DecidableEq ε] [DecidableEq α] : DecidableEq (Except ε α) := fun x y =>
  match x, y with
  | Except.ok a, Except.ok b =>
    match decEq a b with
    | isTrue h => isTrue (by rw [h])
    | isFalse h => isFalse (fun hc => h (by injection hc))
  | Except.error a, Except.error b =>
    match decEq a b with
    | isTrue h => isTrue (by rw [h])
    | isFalse h => isFalse (fun hc => h (by injection hc))
  | Except.ok _, Except.error _ => isFalse (fun hc => Except.noConfusion hc)
  | Except.error _, Except.ok _ => isFalse (fun hc => Except.noConfusion hc)

/-- Contribution of one child node in `parse_search_text`: collapsed text for
a `NavigableString`, collapsed `get_text(strip=False)` for a
`span.search-hit`, nothing for the `a` whose `onclick` contains
`".style.display"` (the "show less" toggle); every other shape is abnormal
(`pdb.set_trace()`, or `TypeError` when `onclick` is absent). -/
def textPiece : Node → Option String
  | .text s => some (collapseWs s)
  | .span classes txt =>
    if classes.contains "search-hit" then some (collapseWs txt) else none
  | .link oc _ =>
    match oc with
    | some s => if pyContains ".style.display" s then some "" else none
    | none => none
  | .other _ => none

/-- The `string += ...` accumulation of `parse_search_text`. -/
def parseSearchTextAux : List Node → String → Option String
  | [], acc => some acc
  | n :: rest, acc =>
    match textPiece n with
    | none => none
    | some p => parseSearchTextAux rest (acc ++ p)

/-- `ArxivScraper.parse_search_text(tag)`, as a function of the tag's child
list; `none` models the abnormal exits. -/
def parseSearchText (ns : List Node) : Option String :=
  parseSearchTextAux ns ""

/-- One `li.arxiv-result` element, reduced to the pieces
`parse_search_html` reads from it: `link` is the `href` of the first
anchor when one exists, `titleTag` and `abstractTag` are the child lists of
`p.title` / `span.abstract-full` when those exist, `dateText` and
`authorsText` are the `get_text(strip=True)` of `p.is-size-7` /
`p.authors` when those exist, and `tagSpans` lists each `span.tag`
element's class list and stripped text. -/
structure ResultEntry where
  link : Option String
  titleTag : Option (List Node)
  dateText : Option String
  tagSpans : List (List String × String)
  authorsText : Option String
  abstractTag : Option (List Node)
  deriving DecidableEq

/-- A harvested record, mirroring the `Paper(...)` constructor call (the
date reduced to a `(year, month, day)` triple). -/
structure Paper where
  url : String
  title : String
  firstSubmittedDate : Nat × Nat × Nat
  categories : List String
  authors : String
  abstract : String
  deriving DecidableEq

/-- The date-slicing step of `parse_search_html`: the `"v1"` branch takes
`date[date.find("v1submitted") + 12 : date.find(";", v1)]`, the other branch
takes `date[date.find("Submitted") + 9 : date.find(";", submit_date)]`. -/
def extractDate (s : String) : String :=
  if pyContains "v1" s then
    let v1 := pyFind s "v1submitted" 0
    pySlice s (v1 + 12) (pyFind s ";" v1)
  else
    let sd := pyFind s "Submitted" 0
    pySlice s (sd + 9) (pyFind s ";" sd)

/-- Rich-text extraction of one field (`title = self.parse_search_text(title_tag)
if title_tag else sentinel`, and the same for the abstract): a missing field
yields its sentinel, an abnormal walk propagates. -/
def textOrErr (ot : Option (List Node)) (sent : String) : Except Err String :=
  match ot with
  | some ns =>
    match parseSearchText ns with
    | some s => Except.ok s
    | none => Except.error Err.pdbStop
  | none => Except.ok sent

/-- `authors_tag.get_text(strip=True)[len("Authors:"):] if authors_tag else
"No authors"`, on the already-extracted text. -/
def authorsOf (oa : Option String) : String :=
  match oa with
  | some s => pySliceFrom s 8
  | none => "No authors"

/-- One iteration of the result loop of `parse_search_html`, producing the
`Paper` appended to `self.papers`.  Sentinels stand in for missing parts
(`"No link"`, `"No title"`, `"No date"`, `"No authors"`, `"No summary"`).
Failure order follows evaluation order in the source: the title walk, then
the abstract walk, then `datetime.strptime` inside the `Paper(...)` call
(the remaining pieces are pure). -/
def parseEntry (e : ResultEntry) : Except Err Paper :=
  match textOrErr e.titleTag "No title" with
  | Except.error er => Except.error er
  | Except.ok title =>
    match textOrErr e.abstractTag "No summary" with
    | Except.error er => Except.error er
    | Except.ok abstract =>
      match strptimeDMY (extractDate (e.dateText.getD "No date")) with
      | none => Except.error Err.valueError
      | some d =>
        Except.ok ⟨e.link.getD "No link", title, d,
          (e.tagSpans.filter (fun c => c.1.contains "tooltip")).map (·.2),
          authorsOf e.authorsText, abstract⟩

/-- One result page, reduced to what `parse_search_html` selects from the
soup: the text of the result-count header
(`#main-container > div.level... > h1`, always present on arXiv search
pages) and the `li.arxiv-result` entries. -/
structure Page where
  header : String
  results : List ResultEntry
  deriving DecidableEq

/-- The mutable scraper attributes the crawl claims concern: `self.total`
(Python `None` or an `int`) and the record buffer `self.papers`. -/
structure ScraperState where
  total : Option Nat
  papers : List Paper
  deriving DecidableEq

/-- `self.step`. -/
def step : Nat := 50

/-- Python truthiness of `self.total` in `if not self.total:` — `None` and
`0` are falsy. -/
def pyFalsyTotal : Option Nat → Bool
  | none => true
  | some 0 => true
  | some (_ + 1) => false

/-- The `int(total[total.find("of") + 3 : total.find("results")].replace(",", ""))`
parse of the result-count header. -/
def parseTotal (h : String) : Option Nat :=
  pyInt (removeCommas (pySlice h (pyFind h "of" 0 + 3) (pyFind h "results" 0)))

/-- The result loop of `parse_search_html`, appending each parsed `Paper` to
`self.papers`; the first abnormal entry aborts the method. -/
def parseResults : List ResultEntry → ScraperState → Except Err ScraperState
  | [], st => Except.ok st
  | e :: rest, st =>
    match parseEntry e with
    | Except.error er => Except.error er
    | Except.ok p => parseResults rest { st with papers := st.papers ++ [p] }

/-- `ArxivScraper.parse_search_html(content)`.  `content = None` (a fetch
that exhausted its retries) raises `TypeError` inside the
`BeautifulSoup(...)` call.  When `self.total` is falsy the result-count
header is read: a header containing `"Sorry"` sets `total = 0` and returns
at once (no entries are read); otherwise the count is parsed (an
unparseable count raises `ValueError`).  Then every `li.arxiv-result`
entry is parsed and appended. -/
def parseSearchHtml (content : Option Page) (st : ScraperState) : Except Err ScraperState :=
  match content with
  | none => Except.error Err.typeError
  | some pg =>
    if pyFalsyTotal st.total then
      if pyContains "Sorry" pg.header then
        Except.ok { st with total := some 0 }
      else
        match parseTotal pg.header with
        | none => Except.error Err.valueError
        | some t => parseResults pg.results { st with total := some t }
    else parseResults pg.results st

/-! ## The fetch loops

The network is an oracle: `attempts i` is the document produced by the
`i`-th HTTP attempt of one `request` call (`none` = the attempt raised),
and at the run level `net start` is the value `request(start)` settles on.
The storage collaborator `paper_db` lives in `paper.py`, outside this
repository's source file; its `update_papers` return value is supplied as
the oracle `db`, indexed by update-call order, and `add_papers` returns
nothing.  `translate()` mutates records in place and neither reads nor
reshapes the buffer list, so it is identity on the modelled state. -/

/-- The `while error <= 3:` retry loop of `ArxivScraper.request`:
`remaining` is the number of attempts the guard still allows (`4 - error`),
so the loop body runs while `remaining > 0`. -/
def requestAux {α : Type} (attempts : Nat → Option α) : Nat → Nat → Option α
  | 0, _ => none
  | remaining + 1, error =>
    match attempts error with
    | some c => some c
    | none => requestAux attempts remaining (error + 1)

/-- `ArxivScraper.request(start)`: up to one initial attempt plus three
retries; falling off the loop returns `None`. -/
def request {α : Type} (attempts : Nat → Option α) : Option α :=
  requestAux attempts 4 0

/-- `ArxivScraper.update_and_clear_papers`, with the collaborator's
`update_papers` return value supplied as `resp`: the buffer is handed over
and reset to `[]`. -/
def updateAndClearPapers (resp : Bool) (st : ScraperState) : ScraperState × Bool :=
  ({ st with papers := [] }, resp)

/-- Observable outcome of one crawl run: the final attribute state, the
batches handed to the storage collaborator (in call order), the page
offsets for which `request` was issued, the offsets for which
`parse_search_html` was entered, and the uncaught exception, if any. -/
structure RunResult where
  final : ScraperState
  handed : List (List Paper)
  fetchCalls : List Nat
  parseCalls : List Nat
  err : Option Err
  deriving DecidableEq

/-- The page loop of `fetch_all` (the `asyncio.gather` fan-out, recorded in
offset order; completion order does not affect any modelled observable
except the order of `self.papers`, which no claim depends on). -/
def fetchAllLoop (net : Nat → Option Page) : List Nat → RunResult → RunResult
  | [], acc => acc
  | s :: rest, acc =>
    match parseSearchHtml (net s) acc.final with
    | Except.error e =>
      { acc with fetchCalls := acc.fetchCalls ++ [s],
                 parseCalls := acc.parseCalls ++ [s], err := some e }
    | Except.ok st1 =>
      fetchAllLoop net rest
        { acc with final := st1, fetchCalls := acc.fetchCalls ++ [s],
                   parseCalls := acc.parseCalls ++ [s] }

/-- The tail of `fetch_all`: when every page parsed, the whole buffer is
handed to `paper_db.add_papers` — and nothing clears `self.papers`
afterwards. -/
def finishAll (r : RunResult) : RunResult :=
  match r.err with
  | some _ => r
  | none => { r with handed := r.handed ++ [r.final.papers] }

/-- `ArxivScraper.fetch_all`: page 0 establishes `self.total`, the
remaining offsets `range(step, total, step)` are fetched and parsed, and
the buffer is handed over in one `add_papers` call. -/
def fetchAll (net : Nat → Option Page) (st0 : ScraperState) : RunResult :=
  match parseSearchHtml (net 0) st0 with
  | Except.error e => ⟨st0, [], [0], [0], some e⟩
  | Except.ok st1 =>
    finishAll (fetchAllLoop net (pyRange step (st1.total.getD 0) step) ⟨st1, [], [0], [0], none⟩)

/-- The `for start in range(self.step, self.total, self.step):` loop of
`fetch_update`: the continuation flag is checked before each fetch, and an
update call follows each parsed page. -/
def updateLoop (net : Nat → Option Page) (db : Nat → Bool) :
    List Nat → RunResult → Bool → RunResult
  | [], acc, _ => acc
  | s :: rest, acc, contF =>
    if contF then
      match parseSearchHtml (net s) acc.final with
      | Except.error e =>
        { acc with fetchCalls := acc.fetchCalls ++ [s],
                   parseCalls := acc.parseCalls ++ [s], err := some e }
      | Except.ok st1 =>
        updateLoop net db rest
          { acc with final := (updateAndClearPapers (db acc.handed.length) st1).1,
                     handed := acc.handed ++ [st1.papers],
                     fetchCalls := acc.fetchCalls ++ [s],
                     parseCalls := acc.parseCalls ++ [s] }
          (updateAndClearPapers (db acc.handed.length) st1).2
    else acc

/-- `ArxivScraper.fetch_update`: page 0 is fetched, parsed and submitted
unconditionally, then pages are processed strictly in sequence while the
collaborator keeps answering "continue". -/
def fetchUpdate (net : Nat → Option Page) (db : Nat → Bool) (st0 : ScraperState) : RunResult :=
  match parseSearchHtml (net 0) st0 with
  | Except.error e => ⟨st0, [], [0], [0], some e⟩
  | Except.ok st1 =>
    updateLoop net db (pyRange step (st1.total.getD 0) step)
      ⟨(updateAndClearPapers (db 0) st1).1, [st1.papers], [0], [0], none⟩
      (updateAndClearPapers (db 0) st1).2

/-- Whether `parse_search_html` gets through one entry without an abnormal
exit. -/
def entrySucceeds (e : ResultEntry) : Bool :=
  match parseEntry e with
  | Except.ok _ => true
  | Except.error _ => false

/-- Whether a fetched document exists and all its entries parse. -/
def pageParses : Option Page → Bool
  | none => false
  | some pg => pg.results.all entrySucceeds

/-- Number of iterations the `fetch_update` page loop executes when entered
with continuation flag `contF`, with `J` update calls already made and `L`
offsets left: it mirrors the loop's `if not continue_update: break`. -/
def loopCount (db : Nat → Bool) : Nat → Nat → Bool → Nat
  | _, 0, _ => 0
  | J, L + 1, contF => if contF then loopCount db (J + 1) L (db J) + 1 else 0

/-- Specification-side contribution of one inline node, following §4.3 of
the spec: text runs and highlight spans with whitespace runs collapsed, the
"show less" control contributing nothing. -/
def specPiece : Node → String
  | .text s => collapseWs s
  | .span _ txt => collapseWs txt
  | .link _ _ => ""
  | .other _ => ""

/-- Inline shapes §4.3 enumerates: plain text, a highlight span, a "show
less" toggle link. -/
def nodeGood : Node → Bool
  | .text _ => true
  | .span classes _ => classes.contains "search-hit"
  | .link oc _ =>
    match oc with
    | some s => pyContains ".style.display" s
    | none => false
  | .other _ => false

/-! ## Concrete fixtures for the witnesses -/

/-- A fully populated result entry (with a keyword highlight mid-abstract). -/
def sampleEntry : ResultEntry :=
  { link := some "https://arxiv.org/abs/2408.00001"
  , titleTag := some [Node.text "A  Sample   Title"]
  , dateText := some "Submitted8 August, 2024; originally announced August 2024."
  , tagSpans := [(["tag", "is-small", "tooltip"], "cs.CL"), (["tag", "is-dark"], "doi")]
  , authorsText := some "Authors:Jane Roe, John Doe"
  , abstractTag := some
      [Node.text "We  study ",
       Node.span ["search-hit", "mathjax"] "language  models",
       Node.text " at scale. ",
       Node.link (some "document.getElementById(x-full).style.display = none;") "△ Less"] }

/-- An entry with every optional sub-part missing. -/
def emptyEntry : ResultEntry :=
  { link := none, titleTag := none, dateText := none
  , tagSpans := [], authorsText := none, abstractTag := none }

/-- An entry where only the date block is present. -/
def dateOnlyEntry : ResultEntry :=
  { emptyEntry with
      dateText := some "Submitted8 August, 2024; originally announced August 2024." }

/-- A first page reporting one result. -/
def samplePage : Page :=
  { header := "Showing 1–1 of 1 results", results := [sampleEntry] }

/-- A first page reporting 120 results (so offsets 50 and 100 remain). -/
def page120 : Page :=
  { header := "Showing 1–50 of 120 results", results := [sampleEntry] }

/-- A page reporting 120 results and carrying no entries. -/
def countOnlyPage : Page :=
  { header := "Showing 1–50 of 120 results", results := [] }

/-- The zero-result header page. -/
def noResultsPage : Page :=
  { header := "Sorry, your query returned no results", results := [sampleEntry] }

/-- Specification-side text of a whole field node: the concatenation, in
order, of its children's contributions. -/
def joinPieces : List Node → String
  | [] => ""
  | nd :: rest => specPiece nd ++ joinPieces rest

/-! ## Helper lemmas -/

theorem pyFalsyTotal_some_ne (n : Nat) (h : n ≠ 0) : pyFalsyTotal (some n) = false := by
  cases n with
  | zero => exact absurd rfl h
  | succ m => rfl

theorem parseResults_total (rs : List ResultEntry) (st st' : ScraperState)
    (h : parseResults rs st = Except.ok st') : st'.total = st.total := by
  induction rs generalizing st with
  | nil =>
    simp only [parseResults] at h
    injection h with h
    rw [← h]
  | cons e rest ih =>
    simp only [parseResults] at h
    cases hpe : parseEntry e with
    | error er => rw [hpe] at h; exact absurd h (by simp)
    | ok p =>
      rw [hpe] at h
      exact ih { st with papers := st.papers ++ [p] } h

theorem parseResults_ok_exists (rs : List ResultEntry) (st : ScraperState)
    (h : ∀ e ∈ rs, entrySucceeds e = true) :
    ∃ st', parseResults rs st = Except.ok st' ∧ st'.total = st.total := by
  induction rs generalizing st with
  | nil => exact ⟨st, rfl, rfl⟩
  | cons e rest ih =>
    have he : entrySucceeds e = true := h e (by simp)
    unfold entrySucceeds at he
    cases hpe : parseEntry e with
    | error er => rw [hpe] at he; simp at he
    | ok p =>
      obtain ⟨st', h1, h2⟩ :=
        ih { st with papers := st.papers ++ [p] } (fun e' he' => h e' (by simp [he']))
      refine ⟨st', ?_, h2⟩
      simp only [parseResults]
      rw [hpe]
      exact h1

theorem parse_total_preserved (c : Option Page) (st st' : ScraperState) (n : Nat)
    (hn : st.total = some n) (h0 : n ≠ 0)
    (hok : parseSearchHtml c st = Except.ok st') : st'.total = some n := by
  cases c with
  | none => exact absurd hok (by simp [parseSearchHtml])
  | some pg =>
    simp only [parseSearchHtml] at hok
    rw [hn, pyFalsyTotal_some_ne n h0] at hok
    simp only [Bool.false_eq_true, if_false] at hok
    rw [parseResults_total _ _ _ hok, hn]

theorem parse_ok_exists (c : Option Page) (st : ScraperState) (n : Nat)
    (hc : pageParses c = true) (hn : st.total = some n) (h0 : n ≠ 0) :
    ∃ st', parseSearchHtml c st = Except.ok st' ∧ st'.total = some n := by
  cases c with
  | none => simp [pageParses] at hc
  | some pg =>
    unfold pageParses at hc
    obtain ⟨st', h1, h2⟩ :=
      parseResults_ok_exists pg.results st (by simpa [List.all_eq_true] using hc)
    refine ⟨st', ?_, by rw [h2, hn]⟩
    simp only [parseSearchHtml]
    rw [hn, pyFalsyTotal_some_ne n h0]
    simpa using h1

theorem fetchAllLoop_handed (net : Nat → Option Page) :
    ∀ (offs : List Nat) (acc : RunResult), (fetchAllLoop net offs acc).handed = acc.handed := by
  intro offs
  induction offs with
  | nil => intro acc; rfl
  | cons s rest ih =>
    intro acc
    simp only [fetchAllLoop]
    cases hp : parseSearchHtml (net s) acc.final with
    | error e => rfl
    | ok st1 => rw [ih]

theorem fetchAllLoop_total (net : Nat → Option Page) (n : Nat) (h0 : n ≠ 0) :
    ∀ (offs : List Nat) (acc : RunResult), acc.final.total = some n →
      (fetchAllLoop net offs acc).final.total = some n := by
  intro offs
  induction offs with
  | nil => intro acc h; exact h
  | cons s rest ih =>
    intro acc h
    simp only [fetchAllLoop]
    cases hp : parseSearchHtml (net s) acc.final with
    | error e => exact h
    | ok st1 => exact ih _ (parse_total_preserved _ _ _ n h h0 hp)

theorem updateLoop_handed (net : Nat → Option Page) (db : Nat → Bool) :
    ∀ (offs : List Nat) (acc : RunResult) (c : Bool),
      ∃ l, (updateLoop net db offs acc c).handed = acc.handed ++ l := by
  intro offs
  induction offs with
  | nil => intro acc c; exact ⟨[], by simp [updateLoop]⟩
  | cons s rest ih =>
    intro acc c
    cases c with
    | false => exact ⟨[], by simp [updateLoop]⟩
    | true =>
      simp only [updateLoop, if_true]
      cases hp : parseSearchHtml (net s) acc.final with
      | error e => exact ⟨[], by simp⟩
      | ok st1 =>
        obtain ⟨l, hl⟩ := ih
          { acc with final := (updateAndClearPapers (db acc.handed.length) st1).1,
                     handed := acc.handed ++ [st1.papers],
                     fetchCalls := acc.fetchCalls ++ [s],
                     parseCalls := acc.parseCalls ++ [s] }
          (updateAndClearPapers (db acc.handed.length) st1).2
        exact ⟨st1.papers :: l, by rw [hl]; simp⟩

theorem updateLoop_total (net : Nat → Option Page) (db : Nat → Bool) (n : Nat) (h0 : n ≠ 0) :
    ∀ (offs : List Nat) (acc : RunResult) (c : Bool), acc.final.total = some n →
      (updateLoop net db offs acc c).final.total = some n := by
  intro offs
  induction offs with
  | nil => intro acc c h; exact h
  | cons s rest ih =>
    intro acc c h
    cases c with
    | false => exact h
    | true =>
      simp only [updateLoop, if_true]
      cases hp : parseSearchHtml (net s) acc.final with
      | error e => exact h
      | ok st1 =>
        have h1 : st1.total = some n := parse_total_preserved _ _ st1 n h h0 hp
        exact ih _ _ (by simpa [updateAndClearPapers] using h1)

theorem updateLoop_parseCalls (net : Nat → Option Page) (db : Nat → Bool) :
    ∀ (offs : List Nat) (acc : RunResult) (c : Bool), acc.parseCalls = acc.fetchCalls →
      (updateLoop net db offs acc c).parseCalls = (updateLoop net db offs acc c).fetchCalls := by
  intro offs
  induction offs with
  | nil => intro acc c h; exact h
  | cons s rest ih =>
    intro acc c h
    cases c with
    | false => exact h
    | true =>
      simp only [updateLoop, if_true]
      cases hp : parseSearchHtml (net s) acc.final with
      | error e => simpa using h
      | ok st1 => exact ih _ _ (by simpa using h)

theorem loopCount_char (db : Nat → Bool) :
    ∀ (L J : Nat) (c : Bool) (i : Nat),
      i < loopCount db J L c ↔ i < L ∧ c = true ∧ ∀ j, j < i → db (J + j) = true := by
  intro L
  induction L with
  | zero => intro J c i; simp [loopCount]
  | succ L ih =>
    intro J c i
    cases c with
    | false => simp [loopCount]
    | true =>
      simp only [loopCount, if_true]
      cases i with
      | zero =>
        exact ⟨fun _ => ⟨Nat.succ_pos L, by trivial, fun j hj => absurd hj (by omega)⟩,
               fun _ => Nat.succ_pos _⟩
      | succ i =>
        rw [Nat.succ_lt_succ_iff, ih (J + 1) (db J) i, Nat.succ_lt_succ_iff]
        constructor
        · rintro ⟨h1, h2, h3⟩
          refine ⟨h1, by trivial, ?_⟩
          intro j hj
          cases j with
          | zero => simpa using h2
          | succ j =>
            have e : J + (j + 1) = J + 1 + j := by omega
            rw [e]
            exact h3 j (by omega)
        · rintro ⟨h1, _, h3⟩
          refine ⟨h1, by simpa using h3 0 (by omega), ?_⟩
          intro j hj
          have e : J + 1 + j = J + (j + 1) := by omega
          rw [e]
          exact h3 (j + 1) (by omega)

theorem updateLoop_fetchCalls (net : Nat → Option Page) (db : Nat → Bool) (n : Nat)
    (h0 : n ≠ 0) :
    ∀ (offs : List Nat) (acc : RunResult) (c : Bool),
      acc.final.total = some n →
      (∀ s ∈ offs, pageParses (net s) = true) →
      (updateLoop net db offs acc c).fetchCalls
        = acc.fetchCalls ++ offs.take (loopCount db acc.handed.length offs.length c) := by
  intro offs
  induction offs with
  | nil => intro acc c _ _; simp [updateLoop, loopCount]
  | cons s rest ih =>
    intro acc c htot hall
    cases c with
    | false => simp [updateLoop, loopCount]
    | true =>
      simp only [updateLoop, if_true]
      have hps : pageParses (net s) = true := hall s (by simp)
      obtain ⟨st1, hok, htot1⟩ := parse_ok_exists (net s) acc.final n hps htot h0
      rw [hok]
      rw [ih
        { acc with final := (updateAndClearPapers (db acc.handed.length) st1).1,
                   handed := acc.handed ++ [st1.papers],
                   fetchCalls := acc.fetchCalls ++ [s],
                   parseCalls := acc.parseCalls ++ [s] }
        (updateAndClearPapers (db acc.handed.length) st1).2
        (by simpa [updateAndClearPapers] using htot1)
        (fun s' hs' => hall s' (by simp [hs']))]
      simp only [List.length_cons, loopCount, if_true, updateAndClearPapers,
        List.length_append, List.length_singleton]
      rw [List.take_succ_cons]
      simp

theorem finishAll_err (r : RunResult) : (finishAll r).err = r.err := by
  cases hr : r.err <;> simp [finishAll, hr]

theorem finishAll_final (r : RunResult) : (finishAll r).final = r.final := by
  cases hr : r.err <;> simp [finishAll, hr]

theorem finishAll_handed_of_ok (r : RunResult) (h : r.err = none) :
    (finishAll r).handed = r.handed ++ [r.final.papers] := by
  simp [finishAll, h]

theorem fetchAll_eq_of_error (net : Nat → Option Page) (st0 : ScraperState) (e : Err)
    (hp : parseSearchHtml (net 0) st0 = Except.error e) :
    fetchAll net st0 = ⟨st0, [], [0], [0], some e⟩ := by
  unfold fetchAll; rw [hp]

theorem fetchAll_eq_of_ok (net : Nat → Option Page) (st0 st1 : ScraperState)
    (hp : parseSearchHtml (net 0) st0 = Except.ok st1) :
    fetchAll net st0
      = finishAll (fetchAllLoop net (pyRange step (st1.total.getD 0) step)
          ⟨st1, [], [0], [0], none⟩) := by
  unfold fetchAll; rw [hp]

theorem fetchUpdate_eq_of_error (net : Nat → Option Page) (db : Nat → Bool)
    (st0 : ScraperState) (e : Err)
    (hp : parseSearchHtml (net 0) st0 = Except.error e) :
    fetchUpdate net db st0 = ⟨st0, [], [0], [0], some e⟩ := by
  unfold fetchUpdate; rw [hp]

theorem fetchUpdate_eq_of_ok (net : Nat → Option Page) (db : Nat → Bool)
    (st0 st1 : ScraperState)
    (hp : parseSearchHtml (net 0) st0 = Except.ok st1) :
    fetchUpdate net db st0
      = updateLoop net db (pyRange step (st1.total.getD 0) step)
          ⟨(updateAndClearPapers (db 0) st1).1, [st1.papers], [0], [0], none⟩
          (updateAndClearPapers (db 0) st1).2 := by
  unfold fetchUpdate; rw [hp]

theorem textOrErr_ok (ot : Option (List Node)) (sent : String)
    (h : (match ot with
          | some ns => (parseSearchText ns).isSome
          | none => true) = true) :
    ∃ tv, textOrErr ot sent = Except.ok tv ∧ (ot = none → tv = sent) := by
  cases ot with
  | none => exact ⟨sent, rfl, fun _ => rfl⟩
  | some ns =>
    simp only [Option.isSome] at h
    cases hs : parseSearchText ns with
    | none => rw [hs] at h; simp at h
    | some s => exact ⟨s, by simp [textOrErr, hs], by simp⟩

/-! ## Claims -/

/-- C5: when `self.total` is still unset (a first page) and the result-count
header contains `"Sorry"`, `parse_search_html` sets the total to `0` and
returns normally with no record appended — a valid terminal state, not an
error. -/
theorem no_results_header_terminal (st : ScraperState) (pg : Page)
    (h1 : st.total = none) (h2 : pyContains "Sorry" pg.header = true) :
    parseSearchHtml (some pg) st = Except.ok { st with total := some 0 } := by
  simp [parseSearchHtml, h1, pyFalsyTotal, h2]

/-- Witness for C5: a concrete no-result page (carrying a stray entry, which
is indeed not parsed) on a fresh scraper state. -/
theorem no_results_header_terminal_witness :
    (⟨none, []⟩ : ScraperState).total = none
    ∧ pyContains "Sorry" noResultsPage.header = true
    ∧ parseSearchHtml (some noResultsPage) ⟨none, []⟩
        = Except.ok { total := some 0, papers := [] } :=
  ⟨rfl, by decide, no_results_header_terminal ⟨none, []⟩ noResultsPage rfl (by decide)⟩

/-- C6: the date text `"Submitted 8 August, 2024; originally announced
August 2024."` carries no `"v1"` marker, so the non-v1 rule slices out the
text after `"Submitted"` up to the semicolon (here `" 8 August, 2024"`,
whose leading space the `%d` pattern tolerates), and the parsed submission
date is 2024-08-08. -/
theorem date_without_v1_marker :
    pyContains "v1" "Submitted 8 August, 2024; originally announced August 2024." = false
    ∧ extractDate "Submitted 8 August, 2024; originally announced August 2024."
        = " 8 August, 2024"
    ∧ (parseEntry { sampleEntry with
          dateText := some "Submitted 8 August, 2024; originally announced August 2024." }
        ).map Paper.firstSubmittedDate = Except.ok (2024, 8, 8) := by
  refine ⟨by decide, by decide, by decide⟩

/-- Counterexample to C2: on the date text `"25 April, 1986; v1submitted
8 August, 2024; originally announced August 2024."` the `"v1"` branch does
not produce 1986-04-25. -/
theorem date_v1_not_original :
    ¬ strptimeDMY (extractDate
        "25 April, 1986; v1submitted 8 August, 2024; originally announced August 2024.")
      = some (1986, 4, 25) := by decide

/-- C2 (amended): on that date text the `"v1"` branch slices out the text
after the `"v1submitted"` marker up to the following semicolon — `"8 August,
2024"` — so the parsed date is the v1 date 2024-08-08, not 1986-04-25.  (In
genuine arXiv markup the v1 date is the earliest submission date, listed
after the current version's date, which is what the code is after.) -/
theorem date_v1_takes_v1_date :
    extractDate "25 April, 1986; v1submitted 8 August, 2024; originally announced August 2024."
      = "8 August, 2024"
    ∧ (parseEntry { sampleEntry with
          dateText := some "25 April, 1986; v1submitted 8 August, 2024; originally announced August 2024." }
        ).map Paper.firstSubmittedDate = Except.ok (2024, 8, 8) := by
  refine ⟨by decide, by decide⟩

/-- C7 auxiliary: the accumulator form of the text-extractor walk. -/
theorem parseSearchTextAux_good (ns : List Node) :
    (∀ nd ∈ ns, nodeGood nd = true) → ∀ acc : String,
      parseSearchTextAux ns acc = some (acc ++ joinPieces ns) := by
  induction ns with
  | nil => intro _ acc; simp [parseSearchTextAux, joinPieces]
  | cons nd rest ih =>
    intro h acc
    have hg : nodeGood nd = true := h nd (by simp)
    have hp : textPiece nd = some (specPiece nd) := by
      cases nd with
      | text s => rfl
      | span classes txt =>
        have hm : "search-hit" ∈ classes := by simpa [nodeGood] using hg
        simp [textPiece, specPiece, hm]
      | link oc txt =>
        cases oc with
        | none => simp [nodeGood] at hg
        | some s =>
          simp only [nodeGood] at hg
          simp [textPiece, specPiece, hg]
      | other nm => simp [nodeGood] at hg
    simp only [parseSearchTextAux, hp]
    rw [ih (fun x hx => h x (by simp [hx])) (acc ++ specPiece nd)]
    simp [joinPieces, String.append_assoc]

/-- C7: on a field node whose children are plain text runs, `search-hit`
highlight spans, and the "show less" toggle link, `parse_search_text`
returns exactly the concatenation of the collapsed text runs, the collapsed
highlight texts in place, and nothing for the toggle. -/
theorem text_extractor_spec (ns : List Node) (h : ∀ nd ∈ ns, nodeGood nd = true) :
    parseSearchText ns = some (joinPieces ns) := by
  unfold parseSearchText
  rw [parseSearchTextAux_good ns h ""]
  simp

/-- Witness for C7: a highlighted keyword mid-abstract is kept in place,
whitespace runs collapse to single spaces, the toggle contributes nothing. -/
theorem text_extractor_spec_witness :
    parseSearchText
        [Node.text "We  study ",
         Node.span ["search-hit", "mathjax"] "language  models",
         Node.text " at scale. ",
         Node.link (some "document.getElementById(x-full).style.display = none;") "△ Less"]
      = some "We study language models at scale. " := by
  rw [text_extractor_spec _ (by decide)]
  decide

/-- C9: missing sub-parts of a result entry do not raise; they yield the
sentinels `"No link"`, `"No title"`, `"No authors"`, `"No summary"` in the
constructed record, while a missing date block yields the `"No date"`
sentinel, which then fails date parsing (`ValueError`).  The hypotheses say
the title and abstract walks, when those parts are present, do not
themselves abort. -/
theorem missing_parts_sentinels (e : ResultEntry) (d : Nat × Nat × Nat)
    (htitle : (match e.titleTag with
               | some ns => (parseSearchText ns).isSome
               | none => true) = true)
    (habs : (match e.abstractTag with
             | some ns => (parseSearchText ns).isSome
             | none => true) = true) :
    (e.dateText = none → parseEntry e = Except.error Err.valueError)
    ∧ (strptimeDMY (extractDate (e.dateText.getD "No date")) = some d →
        ∃ p, parseEntry e = Except.ok p
          ∧ p.firstSubmittedDate = d
          ∧ (e.link = none → p.url = "No link")
          ∧ (e.titleTag = none → p.title = "No title")
          ∧ (e.authorsText = none → p.authors = "No authors")
          ∧ (e.abstractTag = none → p.abstract = "No summary")) := by
  obtain ⟨tv, htv, htv0⟩ := textOrErr_ok e.titleTag "No title" htitle
  obtain ⟨av, hav, hav0⟩ := textOrErr_ok e.abstractTag "No summary" habs
  constructor
  · intro hd
    have hno : strptimeDMY (extractDate "No date") = none := by decide
    simp [parseEntry, htv, hav, hd, hno]
  · intro hd
    refine ⟨⟨e.link.getD "No link", tv, d,
      (e.tagSpans.filter (fun c => c.1.contains "tooltip")).map (·.2),
      authorsOf e.authorsText, av⟩, ?_, rfl, ?_, ?_, ?_, ?_⟩
    · simp [parseEntry, htv, hav, hd]
    · intro hl; simp [hl]
    · intro hl; exact htv0 hl
    · intro hl; simp [authorsOf, hl]
    · intro hl; exact hav0 hl

/-- Witness for C9: the entry with every sub-part missing hits the first
branch (missing date ⇒ `ValueError`), and an entry with only the date
present builds a record whose other fields are the four sentinels. -/
theorem missing_parts_sentinels_witness :
    parseEntry emptyEntry = Except.error Err.valueError
    ∧ ∃ p, parseEntry dateOnlyEntry = Except.ok p
        ∧ p.firstSubmittedDate = (2024, 8, 8)
        ∧ (dateOnlyEntry.link = none → p.url = "No link") := by
  constructor
  · exact (missing_parts_sentinels emptyEntry (2024, 8, 8) (by decide) (by decide)).1 rfl
  · obtain ⟨p, h1, h2, h3, _⟩ :=
      (missing_parts_sentinels dateOnlyEntry (2024, 8, 8) (by decide) (by decide)).2 (by decide)
    exact ⟨p, h1, h2, h3⟩

/-- Counterexample to C3: when every attempt for page 0 fails, `request`
does return no document, but the run does not abort *before* invoking the
result parser — `parse_search_html` is entered for page 0 (offset 0 is in
the parser-invocation trace) and the abort is the `TypeError` it raises on
the missing document. -/
theorem retries_exhausted_parser_invoked :
    request (α := Page) (fun _ => none) = none
    ∧ 0 ∈ (fetchAll (fun _ => none) ⟨none, []⟩).parseCalls
    ∧ (fetchAll (fun _ => none) ⟨none, []⟩).err = some Err.typeError := by
  refine ⟨by decide, by decide, by decide⟩

/-- C3 (amended): after 4 consecutive failures (the initial attempt and all
3 retries), `request` returns no document; the run then aborts with the
`TypeError` raised when the result parser is handed the missing document —
no records are parsed for that page and nothing reaches storage. -/
theorem retries_exhausted_aborts (attempts : Nat → Option Page)
    (net : Nat → Option Page) (st0 : ScraperState)
    (hfail : ∀ i, i ≤ 3 → attempts i = none) (hn : net 0 = none) :
    request attempts = none
    ∧ fetchAll net st0
        = { final := st0, handed := [], fetchCalls := [0], parseCalls := [0],
            err := some Err.typeError } := by
  constructor
  · simp [request, requestAux, hfail 0 (by omega), hfail 1 (by omega),
      hfail 2 (by omega), hfail 3 (by omega)]
  · simp [fetchAll, hn, parseSearchHtml]

/-- Witness for C3 (amended): the all-failing network oracle. -/
theorem retries_exhausted_aborts_witness :
    request (α := Page) (fun _ => none) = none
    ∧ fetchAll (fun _ => none) ⟨none, []⟩
        = { final := ⟨none, []⟩, handed := [], fetchCalls := [0], parseCalls := [0],
            err := some Err.typeError } :=
  retries_exhausted_aborts (fun _ => none) (fun _ => none) ⟨none, []⟩
    (fun _ _ => rfl) rfl

/-- Counterexample to C4: a completed full crawl hands the buffer to
`add_papers` but does not clear it — `self.papers` still holds the handed
records when `fetch_all` returns. -/
theorem fetchAll_keeps_buffer :
    (fetchAll (fun _ => some samplePage) ⟨none, []⟩).err = none
    ∧ (fetchAll (fun _ => some samplePage) ⟨none, []⟩).handed
        = [(fetchAll (fun _ => some samplePage) ⟨none, []⟩).final.papers]
    ∧ (fetchAll (fun _ => some samplePage) ⟨none, []⟩).final.papers ≠ [] := by
  refine ⟨by decide, by decide, by decide⟩

/-- C4 (amended): each per-page `update_papers` handoff of incremental mode
leaves the buffer empty, but the single `add_papers` handoff at the end of
`fetch_all` does not clear the buffer: the final buffer is exactly the
batch handed over. -/
theorem handoff_buffer_state (r : Bool) (st : ScraperState)
    (net : Nat → Option Page) (st0 : ScraperState)
    (hok : (fetchAll net st0).err = none) :
    (updateAndClearPapers r st).1.papers = []
    ∧ (fetchAll net st0).handed = [(fetchAll net st0).final.papers] := by
  refine ⟨rfl, ?_⟩
  cases hp : parseSearchHtml (net 0) st0 with
  | error e => rw [fetchAll_eq_of_error net st0 e hp] at hok; simp at hok
  | ok st1 =>
    rw [fetchAll_eq_of_ok net st0 st1 hp] at hok ⊢
    rw [finishAll_err] at hok
    rw [finishAll_handed_of_ok _ hok, finishAll_final, fetchAllLoop_handed]
    simp

/-- Witness for C4 (amended): a concrete successful one-page crawl. -/
theorem handoff_buffer_state_witness :
    (updateAndClearPapers true ⟨some 1, []⟩).1.papers = []
    ∧ (fetchAll (fun _ => some samplePage) ⟨none, []⟩).handed
        = [(fetchAll (fun _ => some samplePage) ⟨none, []⟩).final.papers] :=
  handoff_buffer_state true ⟨some 1, []⟩ (fun _ => some samplePage) ⟨none, []⟩ (by decide)

/-- C10: an incremental run whose first page parses submits at least one
batch — `update_and_clear_papers` runs once for page 0 unconditionally, and
the first batch handed over is exactly page 0's records (possibly the empty
batch). -/
theorem fetchUpdate_always_submits (net : Nat → Option Page) (db : Nat → Bool)
    (st0 st1 : ScraperState) (h0 : parseSearchHtml (net 0) st0 = Except.ok st1) :
    1 ≤ (fetchUpdate net db st0).handed.length
    ∧ (fetchUpdate net db st0).handed.head? = some st1.papers := by
  rw [fetchUpdate_eq_of_ok net db st0 st1 h0]
  obtain ⟨l, hl⟩ := updateLoop_handed net db (pyRange step (st1.total.getD 0) step)
    ⟨(updateAndClearPapers (db 0) st1).1, [st1.papers], [0], [0], none⟩
    (updateAndClearPapers (db 0) st1).2
  rw [hl]
  simp

/-- Witness for C10: a zero-result first page still produces one update
call, with the empty batch. -/
theorem fetchUpdate_always_submits_witness :
    1 ≤ (fetchUpdate (fun _ => some noResultsPage) (fun _ => true) ⟨none, []⟩).handed.length
    ∧ (fetchUpdate (fun _ => some noResultsPage) (fun _ => true) ⟨none, []⟩).handed.head?
        = some ([] : List Paper) :=
  fetchUpdate_always_submits (fun _ => some noResultsPage) (fun _ => true)
    ⟨none, []⟩ ⟨some 0, []⟩ (by decide)

/-- C8: once `self.total` holds a non-zero count it persists on the object:
a later successful `parse_search_html` call keeps it (the count reported by
the newly fetched page is never read), and a subsequent `fetch_update` or
`fetch_all` on the same object ends with it unchanged. -/
theorem total_persists (c : Option Page) (st st1 : ScraperState) (n : Nat)
    (net : Nat → Option Page) (db : Nat → Bool) (st0 : ScraperState)
    (h0 : n ≠ 0) (hst : st.total = some n)
    (hok : parseSearchHtml c st = Except.ok st1)
    (hst0 : st0.total = some n) :
    st1.total = some n
    ∧ (fetchUpdate net db st0).final.total = some n
    ∧ (fetchAll net st0).final.total = some n := by
  refine ⟨parse_total_preserved c st st1 n hst h0 hok, ?_, ?_⟩
  · cases hp : parseSearchHtml (net 0) st0 with
    | error e => rw [fetchUpdate_eq_of_error net db st0 e hp]; exact hst0
    | ok s1 =>
      rw [fetchUpdate_eq_of_ok net db st0 s1 hp]
      have h1 : s1.total = some n := parse_total_preserved _ _ _ n hst0 h0 hp
      exact updateLoop_total net db n h0 _ _ _ (by simpa [updateAndClearPapers] using h1)
  · cases hp : parseSearchHtml (net 0) st0 with
    | error e => rw [fetchAll_eq_of_error net st0 e hp]; exact hst0
    | ok s1 =>
      rw [fetchAll_eq_of_ok net st0 s1 hp, finishAll_final]
      have h1 : s1.total = some n := parse_total_preserved _ _ _ n hst0 h0 hp
      exact fetchAllLoop_total net n h0 _ _ h1

/-- Witness for C8: with `total = 7` already stored, a page whose header
reports 120 results changes nothing, in a lone parse call and across whole
runs. -/
theorem total_persists_witness :
    (⟨some 7, []⟩ : ScraperState).total = some 7
    ∧ (fetchUpdate (fun _ => some countOnlyPage) (fun _ => true) ⟨some 7, []⟩).final.total
        = some 7
    ∧ (fetchAll (fun _ => some countOnlyPage) ⟨some 7, []⟩).final.total = some 7 :=
  total_persists (some countOnlyPage) ⟨some 7, []⟩ ⟨some 7, []⟩ 7
    (fun _ => some countOnlyPage) (fun _ => true) ⟨some 7, []⟩
    (by decide) rfl (by decide) rfl

/-- C1: in an incremental update run whose pages all parse, the page at
offset `k * step` (for `k ≥ 1`, offset below the discovered total) is
fetched exactly when the batch submitted for every earlier page — page 0
included — was answered "continue"; as soon as one batch is answered
"stop", no later page is fetched.  Parser invocations coincide with
fetches, so pages are fetched and parsed strictly in submission order. -/
theorem fetchUpdate_strictly_sequential
    (net : Nat → Option Page) (db : Nat → Bool) (st0 st1 : ScraperState) (k : Nat)
    (h0 : parseSearchHtml (net 0) st0 = Except.ok st1)
    (hall : ∀ s ∈ pyRange step (st1.total.getD 0) step, pageParses (net s) = true)
    (hk : 1 ≤ k) (hlt : k * step < st1.total.getD 0) :
    (k * step ∈ (fetchUpdate net db st0).fetchCalls ↔ ∀ j, j < k → db j = true)
    ∧ (fetchUpdate net db st0).parseCalls = (fetchUpdate net db st0).fetchCalls := by
  have hstep : step ≤ k * step := Nat.le_mul_of_pos_left step (by omega)
  cases hn : st1.total with
  | none =>
    rw [hn] at hlt
    simp at hlt
  | some n =>
    rw [hn] at hlt hall
    simp only [Option.getD_some] at hlt hall
    have hn0 : n ≠ 0 := by omega
    have hsn : step < n := by omega
    rw [fetchUpdate_eq_of_ok net db st0 st1 h0]
    simp only [hn, Option.getD_some]
    constructor
    · rw [updateLoop_fetchCalls net db n hn0 (pyRange step n step) _ _
          (by simpa [updateAndClearPapers] using hn) hall]
      simp only [updateAndClearPapers]
      have hM : n - step + step - 1 = n - 1 := by omega
      have hpy : pyRange step n step
          = (List.range ((n - 1) / step)).map (fun i => step + i * step) := by
        unfold pyRange
        rw [if_pos hsn, hM]
      rw [hpy]
      rw [List.length_map, List.length_range]
      rw [← List.map_take, List.take_range]
      constructor
      · intro hmem
        rcases List.mem_append.1 hmem with hz | hx
        · exfalso
          simp only [step] at hz hk ⊢
          simp at hz
          omega
        · obtain ⟨a, ha, hfa⟩ := List.mem_map.1 hx
          rw [List.mem_range] at ha
          have hak : a + 1 = k := by
            simp only [step] at hfa
            omega
          have hat : a < loopCount db 1 ((n - 1) / step) (db 0) :=
            lt_of_lt_of_le ha (min_le_left _ _)
          obtain ⟨haD, hdb0, hrest⟩ :=
            (loopCount_char db ((n - 1) / step) 1 (db 0) a).1 hat
          intro j hj
          cases j with
          | zero => exact hdb0
          | succ j =>
            have e : j + 1 = 1 + j := by omega
            rw [e]
            exact hrest j (by omega)
      · intro hdb
        have hdb0 : db 0 = true := hdb 0 (by omega)
        have hkD : k - 1 < (n - 1) / step := by
          simp only [step] at hlt ⊢
          omega
        have hkt : k - 1 < loopCount db 1 ((n - 1) / step) (db 0) := by
          rw [loopCount_char db ((n - 1) / step) 1 (db 0) (k - 1)]
          refine ⟨hkD, hdb0, ?_⟩
          intro j hj
          have e : 1 + j = j + 1 := by omega
          rw [e]
          exact hdb (j + 1) (by omega)
        refine List.mem_append.2 (Or.inr ?_)
        refine List.mem_map.2 ⟨k - 1, List.mem_range.2 (lt_min hkt hkD), ?_⟩
        simp only [step]
        omega
    · exact updateLoop_parseCalls net db (pyRange step n step) _ _ rfl

/-- Witness for C1: with the collaborator answering "stop" already on the
page-0 batch, offset 50 (below the total of 120) is not fetched. -/
theorem fetchUpdate_strictly_sequential_witness :
    (1 * step ∈ (fetchUpdate (fun _ => some countOnlyPage) (fun _ => false)
        ⟨none, []⟩).fetchCalls
      ↔ ∀ j, j < 1 → (fun _ => false) j = true)
    ∧ (fetchUpdate (fun _ => some countOnlyPage) (fun _ => false) ⟨none, []⟩).parseCalls
        = (fetchUpdate (fun _ => some countOnlyPage) (fun _ => false) ⟨none, []⟩).fetchCalls :=
  fetchUpdate_strictly_sequential (fun _ => some countOnlyPage) (fun _ => false)
    ⟨none, []⟩ ⟨some 120, []⟩ 1 (by decide) (by decide) (by decide) (by decide)

end ArxivCrawler
